import Mathlib

/-!
Verification of the pod-zclient configuration-sync client.

The source is a TypeScript module exposing a singleton `ZookeeperClient`
class (constructor, `run`, `connect`, `events`, `retry`, `fetch_config`,
`parse_loaded_data`, `decrypt_value`) and a guarded module entry point
`run_zookeeper`.  Strings are modelled as `List Char` (one entry per
UTF-16 code unit of the JavaScript string; all inputs of interest are in
the basic plane, where code units and characters coincide).  The byte
payload handed to `parse_loaded_data` is modelled after UTF-8 decoding
(`Buffer.prototype.toString "utf8"` is an external collaborator), and the
AES-256-CBC decipher of node's `crypto` module is an external collaborator
passed as a function parameter.  Promise behaviour is modelled by an
explicit settlement state (`resolved` / `rejected` / `pending`), and the
interaction with the coordination service by explicit action traces.
-/

/-- Whitespace test of JavaScript `String.prototype.trim` (the code units
relevant here: space, tab, LF, CR, VT, FF, NBSP, BOM). -/
def isJsWs (c : Char) : Bool :=
  c == ' ' || c == '\t' || c == '\n' || c == '\r' ||
  c == Char.ofNat 11 || c == Char.ofNat 12 || c == Char.ofNat 160 ||
  c == Char.ofNat 65279

/-- Model of JavaScript `s.trim()`: remove leading and trailing whitespace. -/
def jsTrim (s : List Char) : List Char :=
  ((s.dropWhile isJsWs).reverse.dropWhile isJsWs).reverse

/-- Model of JavaScript `s.startsWith(pre)`. -/
def jsStartsWith (pre s : List Char) : Bool :=
  pre.isPrefixOf s

/-- Locate the first occurrence of the (nonempty) separator `sep` in `s`:
`some (before, after)` splits `s` around that first occurrence, `none`
means no occurrence. -/
def breakFirst (sep : List Char) : List Char → Option (List Char × List Char)
  | [] => none
  | c :: cs =>
    if sep.isPrefixOf (c :: cs) then some ([], (c :: cs).drop sep.length)
    else (breakFirst sep cs).map (fun p => (c :: p.1, p.2))

/-- Fuelled worker for `jsSplit`; the fuel only serves termination and is
always sufficient at the call site. -/
def jsSplitAux (sep : List Char) : Nat → List Char → List (List Char)
  | 0, s => [s]
  | fuel + 1, s =>
    match breakFirst sep s with
    | none => [s]
    | some p => p.1 :: jsSplitAux sep fuel p.2

/-- Model of JavaScript `s.split(sep)` for a nonempty separator string:
split at every occurrence of `sep`; adjacent or trailing separators
contribute empty segments. -/
def jsSplit (sep : List Char) (s : List Char) : List (List Char) :=
  jsSplitAux sep (s.length + 1) s

/-- Model of JavaScript `s.replace(pat, "")` for a nonempty pattern: remove
the first occurrence of `pat`, leave `s` unchanged when there is none. -/
def removeFirst (pat : List Char) : List Char → List Char
  | [] => []
  | c :: cs =>
    if pat.isPrefixOf (c :: cs) then (c :: cs).drop pat.length
    else c :: removeFirst pat cs

/-- The CRLF line separator `parse_loaded_data` splits the payload on. -/
def crlf : List Char := ['\r', '\n']

/-- The `devEnc:` marker announcing an encrypted value. -/
def devEncMarker : List Char := "devEnc:".toList

/-- Settlement state of a JavaScript promise: resolved, rejected, or still
pending (its executor finished without ever calling resolve or reject). -/
inductive PromiseState where
  | resolved
  | rejected
  | pending
deriving DecidableEq, Repr

/-- Result of one `parse_loaded_data` call: the ordered list of
`process.env` assignments performed, the settlement state of the returned
promise, and whether the catch branch logged an error. -/
structure ParseResult where
  writes : List (List Char × List Char)
  settle : PromiseState
  errLogged : Bool
deriving DecidableEq, Repr

/-- `item.split("=").map(item => item.trim())` of source line 249. -/
def splitLine (ℓ : List Char) : List (List Char) :=
  (jsSplit ['='] ℓ).map jsTrim

/-- The destructured `key` of source line 249 (element 0 of the split;
`split` always returns at least one element). -/
def lineKey (ℓ : List Char) : List Char :=
  (splitLine ℓ).headD []

/-- The destructured `value` of source line 249: element 1 of the split,
`none` when the line has no `=` (JavaScript `undefined`). -/
def lineValue? (ℓ : List Char) : Option (List Char) :=
  (splitLine ℓ)[1]?

/-- The `process.env` assignment a single data line produces (source line
250), given the decryption function `d` standing for
`this.decrypt_value`: `none` models the `TypeError` thrown by
`value.startsWith` when the line has no `=` and the destructured value is
`undefined`, so no assignment happens. -/
def lineWrite (d : List Char → List Char) (ℓ : List Char) :
    Option (List Char × List Char) :=
  match lineValue? ℓ with
  | none => none
  | some v => some (lineKey ℓ, if jsStartsWith devEncMarker v then d v else v)

/-- The `forEach` loop of source lines 248-251: process lines in order,
returning the assignments made and whether an exception was thrown.  A
throwing line stops the loop; lines after it are not processed. -/
def applyLines (d : List Char → List Char) :
    List (List Char) → List (List Char × List Char) × Bool
  | [] => ([], false)
  | ℓ :: rest =>
    match lineWrite d ℓ with
    | none => ([], true)
    | some kv => (kv :: (applyLines d rest).1, (applyLines d rest).2)

/-- The filter of source line 246: keep lines that are nonempty (JavaScript
`Boolean(item)`) and do not start with `#`. -/
def goodLine (ℓ : List Char) : Bool :=
  !ℓ.isEmpty && !jsStartsWith ['#'] ℓ

/-- `ZookeeperClient.parse_loaded_data` (source lines 239-263), over the
UTF-8-decoded payload: split on CRLF, keep nonempty non-comment lines,
assign each surviving line's key/value pair to `process.env`.  On an
exception the catch branch logs it and the executor returns without ever
calling `resolve`, so the promise stays pending; it never rejects. -/
def parse_loaded_data (d : List Char → List Char) (payload : List Char) :
    ParseResult :=
  let lines := (jsSplit crlf payload).filter goodLine
  let r := applyLines d lines
  { writes := r.1
  , settle := if r.2 then .pending else .resolved
  , errLogged := r.2 }

/-- Identity stand-in for the decryption function, used to instantiate
closed evaluations on payloads whose values carry no `devEnc:` marker (the
decryption function is then never applied). -/
def noDecrypt : List Char → List Char := fun v => v

/-- Lowercase hex digit character for a value below 16 (Node `Buffer` hex
alphabet). -/
def hexDigitChar (n : Nat) : Char :=
  if n < 10 then Char.ofNat (48 + n) else Char.ofNat (87 + n)

/-- Numeric value of a hex digit character, `none` for a non-hex
character. -/
def hexVal? (c : Char) : Option Nat :=
  if '0' ≤ c ∧ c ≤ '9' then some (c.toNat - 48)
  else if 'a' ≤ c ∧ c ≤ 'f' then some (c.toNat - 87)
  else if 'A' ≤ c ∧ c ≤ 'F' then some (c.toNat - 55)
  else none

/-- Two-character hex encoding of one byte. -/
def byteToHex (b : Nat) : List Char :=
  [hexDigitChar (b / 16 % 16), hexDigitChar (b % 16)]

/-- Hex encoding of a byte list (`Buffer.prototype.toString "hex"`). -/
def hexEncode (bs : List Nat) : List Char :=
  (bs.map byteToHex).flatten

/-- Model of `Buffer.from(s, "hex")`: decode hex digit pairs from the
left, stopping at the first invalid or incomplete pair (Node truncates
there). -/
def hexDecode : List Char → List Nat
  | c1 :: c2 :: rest =>
    match hexVal? c1, hexVal? c2 with
    | some h, some l => (16 * h + l) :: hexDecode rest
    | _, _ => []
  | _ => []

/-- `ZookeeperClient.decrypt_value` (source lines 268-281): remove the
first occurrence of `devEnc:`, read the configured secret key as hex
bytes, take the first 32 characters of the remainder as the hex-encoded
IV and the rest as the hex-encoded ciphertext, and hand all three to the
decipher.  `decipher` models the external AES-256-CBC decipher of node's
`crypto` module (`createDecipheriv` / `update` / `final`, the decryption
collaborator of spec section 6): key bytes, IV bytes and ciphertext bytes
in, UTF-8 plaintext out. -/
def decrypt_value (decipher : List Nat → List Nat → List Nat → List Char)
    (encryption_secret_key : List Char) (encryptedText : List Char) :
    List Char :=
  let stripped := removeFirst devEncMarker encryptedText
  let key := hexDecode encryption_secret_key
  let iv := hexDecode (stripped.take 32)
  let encrypted := hexDecode (stripped.drop 32)
  decipher key iv encrypted

/-- The `ZClientConfig` interface (source lines 9-18); the two optional
callback fields are modelled as opaque handles. -/
structure ZClientConfig where
  client : String
  connectionString : String
  username : String
  password : String
  path : String
  encryptionSecretKey : String
  logger : Option Nat
  onUpdateConfigurations : Option Nat
deriving DecidableEq, Repr

/-- The `ZookeeperClient` instance fields (source lines 24-34): the
configuration copied at construction plus the session handle created by
`zookeeper.createClient`, modelled as a numeric id.  All fields are
`readonly` in the source and assigned only in the constructor. -/
structure ZookeeperClient where
  client : Nat
  connection_string : String
  username : String
  password : String
  path : String
  encryption_secret_key : String
  logger : Option Nat
  on_update_configurations : Option Nat
deriving DecidableEq, Repr

/-- Field initialisation of the constructor (source lines 48-59) on the
path where no instance exists yet: copy the config fields and create a
fresh session handle. -/
def mkInstance (cfg : ZClientConfig) (sid : Nat) : ZookeeperClient :=
  { client := sid
  , connection_string := cfg.connectionString
  , username := cfg.username
  , password := cfg.password
  , path := cfg.path
  , encryption_secret_key := cfg.encryptionSecretKey
  , logger := cfg.logger
  , on_update_configurations := cfg.onUpdateConfigurations }

/-- The constructor (source lines 39-60) as a transition on the static
`ZookeeperClient.instance` field: if an instance exists it is returned
unchanged and the arguments are ignored; otherwise a new instance is
created from the config and stored.  `sid` is the fresh session id the
`zookeeper.createClient` call would hand out. -/
def construct (st : Option ZookeeperClient) (cfg : ZClientConfig)
    (sid : Nat) : ZookeeperClient × Option ZookeeperClient :=
  match st with
  | some inst => (inst, some inst)
  | none => (mkInstance cfg sid, some (mkInstance cfg sid))

/-- A sequence of constructor calls starting from static state `st`,
collecting the instance each call returns; fresh session ids count up. -/
def constructAll (st : Option ZookeeperClient) (sid : Nat) :
    List ZClientConfig → List ZookeeperClient
  | [] => []
  | cfg :: rest =>
    (construct st cfg sid).1 ::
      constructAll (construct st cfg sid).2 (sid + 1) rest

/-- Observable outcome of one `run()` call: the settlement state of the
promise it returns, the number of "unhandled error" records logged, and
the number of `client.close()` calls performed (each `retry()` closes
once). -/
structure RunResult where
  state : PromiseState
  unhandledLogs : Nat
  closes : Nat
deriving DecidableEq, Repr

/-- `ZookeeperClient.run` (source lines 65-89).  The argument lists the
outcomes of the successive `connect → events → fetch_config` chains:
`true` for a chain that completes, `false` for one that throws; an empty
list models a chain that never settles.  On success the executor calls
`resolve`.  On a throw the catch (lines 78-87) logs once and awaits
`this.retry()` — which closes the session once and runs the next chain —
but never calls `resolve`, so the promise returned by this `run()` call
stays pending whatever the retried run does. -/
def run_model : List Bool → RunResult
  | [] => ⟨.pending, 0, 0⟩
  | true :: _ => ⟨.resolved, 0, 0⟩
  | false :: rest =>
    ⟨.pending, (run_model rest).unhandledLogs + 1, (run_model rest).closes + 1⟩

/-- `ZookeeperClient.retry` (source lines 164-170): close the session,
await a fresh `run()`, then resolve.  Its promise resolves exactly when
the inner run resolves, and it never rejects. -/
def retry_model (attempts : List Bool) : RunResult :=
  ⟨if (run_model attempts).state = .resolved then .resolved else .pending
  , (run_model attempts).unhandledLogs
  , (run_model attempts).closes + 1⟩

/-- Session-level actions the client performs against the coordination
service, tagged with the session handle they act on. -/
inductive ZAction where
  | createSession (sid : Nat)
  | closeSession (sid : Nat)
  | connectSession (sid : Nat)
  | getData (sid : Nat)
deriving DecidableEq, Repr

/-- The session handle an action targets. -/
def ZAction.sid : ZAction → Nat
  | .createSession s => s
  | .closeSession s => s
  | .connectSession s => s
  | .getData s => s

/-- Whether an action creates a new session. -/
def ZAction.isCreate : ZAction → Bool
  | .createSession _ => true
  | _ => false

/-- Constructor trace (source line 58): the sole `createClient` call in
the whole module. -/
def constructor_trace (sid : Nat) : List ZAction := [.createSession sid]

/-- Session actions of one `run()` call on the instance whose `readonly`
`client` field holds handle `sid`.  Every method acts on `this.client`: a
successful chain connects (line 108) and issues one `getData` (line 178);
a failing chain is modelled as failing after initiating the connection,
upon which the catch invokes `retry()`: close the same handle (line 166)
and start the next chain.  An empty outcome list models a chain that
hangs after initiating the connection. -/
def run_trace (sid : Nat) : List Bool → List ZAction
  | [] => [.connectSession sid]
  | true :: _ => [.connectSession sid, .getData sid]
  | false :: rest => .connectSession sid :: .closeSession sid :: run_trace sid rest

/-- `retry()` trace (source lines 164-170): close `this.client`, then run
again on the very same handle — the `client` field is `readonly`,
assigned only at construction, and never reassigned, so no new session is
ever created on retry. -/
def retry_trace (sid : Nat) (attempts : List Bool) : List ZAction :=
  .closeSession sid :: run_trace sid attempts

/-- A watcher event of the node-zookeeper-client library: its numeric
`type` and its `name`. -/
structure ZkEvent where
  type : Int
  name : String
deriving DecidableEq, Repr

/-- The four node watcher event kinds the library can deliver to a data
watcher. -/
inductive WatchKind where
  | nodeCreated
  | nodeDeleted
  | nodeDataChanged
  | nodeChildrenChanged
deriving DecidableEq, Repr

/-- The (type, name) pair the library attaches to each watcher event kind
(the `Event` constants of node-zookeeper-client). -/
def eventOf : WatchKind → ZkEvent
  | .nodeCreated => ⟨1, "NODE_CREATED"⟩
  | .nodeDeleted => ⟨2, "NODE_DELETED"⟩
  | .nodeDataChanged => ⟨3, "NODE_DATA_CHANGED"⟩
  | .nodeChildrenChanged => ⟨4, "NODE_CHILDREN_CHANGED"⟩

/-- The watch callback registered by `fetch_config` (source lines
180-191): how many new `fetch_config()` calls it makes for a given event
— one when `event.type === 3 && event.name === "NODE_DATA_CHANGED"`, none
otherwise. -/
def watch_refetch_count (e : ZkEvent) : Nat :=
  if e.type = 3 ∧ e.name = "NODE_DATA_CHANGED" then 1 else 0

/-- One `fetch_config()` call (source lines 175-234) issues exactly one
`getData`, and that single call both reads the node and registers one
fresh watch. -/
def fetch_config_trace (sid : Nat) : List ZAction := [.getData sid]

/-- Module-level state of the entry point: the `is_running_zookeeper`
flag (source line 288) and the static singleton instance (source line
26). -/
structure ModuleState where
  is_running_zookeeper : Bool
  inst : Option ZookeeperClient
deriving DecidableEq, Repr

/-- What one `run_zookeeper` call did: entered the construct-and-run
branch, or resolved immediately in the else branch. -/
inductive RzAction where
  | constructedAndRan
  | noop
deriving DecidableEq, Repr

/-- `run_zookeeper` (source lines 290-310) as a transition on the module
state: when the flag is unset, construct (the singleton constructor) and
run; when set, resolve immediately as a no-op.  Nothing in the source
ever assigns `is_running_zookeeper`, so both branches leave the flag
component unchanged. -/
def run_zookeeper (cfg : ZClientConfig) (sid : Nat) (st : ModuleState) :
    RzAction × ModuleState :=
  if st.is_running_zookeeper then (.noop, st)
  else
    (.constructedAndRan,
      { is_running_zookeeper := st.is_running_zookeeper
      , inst := (construct st.inst cfg sid).2 })

/-- Initial module state: flag unset, no instance yet (source lines 26
and 288). -/
def initialModuleState : ModuleState := ⟨false, none⟩

/-!
Helper lemmas about the string-operation models.
-/

lemma breakFirst_decomp (sep : List Char) :
    ∀ s a b, breakFirst sep s = some (a, b) → s = a ++ sep ++ b := by
  intro s
  induction s with
  | nil => intro a b h; simp [breakFirst] at h
  | cons x xs ih =>
    intro a b h
    by_cases hp : sep.isPrefixOf (x :: xs)
    · rw [breakFirst, if_pos hp] at h
      obtain ⟨t, ht⟩ := List.isPrefixOf_iff_prefix.mp hp
      obtain ⟨rfl, rfl⟩ : a = [] ∧ (x :: xs).drop sep.length = b := by
        simpa using h
      rw [← ht, List.drop_left]
      simp [← ht]
    · rw [breakFirst, if_neg hp] at h
      cases hb : breakFirst sep xs with
      | none => rw [hb] at h; simp at h
      | some p =>
        rw [hb] at h
        obtain ⟨rfl, rfl⟩ : x :: p.1 = a ∧ p.2 = b := by
          simpa using h
        have := ih p.1 p.2 (by rw [hb])
        simp [this]

lemma breakFirst_length_lt (sep : List Char) (hsep : sep ≠ [])
    {s a b : List Char} (h : breakFirst sep s = some (a, b)) :
    b.length < s.length := by
  have hd := breakFirst_decomp sep s a b h
  have : 1 ≤ sep.length := by
    cases sep with
    | nil => exact absurd rfl hsep
    | cons _ _ => simp
  rw [hd]
  simp only [List.length_append]
  omega

lemma jsSplitAux_fuel (sep : List Char) (hsep : sep ≠ []) :
    ∀ f g s, s.length < f → s.length < g →
      jsSplitAux sep f s = jsSplitAux sep g s := by
  intro f
  induction f with
  | zero => intro g s hf; omega
  | succ f ihf =>
    intro g s hf hg
    cases g with
    | zero => omega
    | succ g =>
      rw [jsSplitAux, jsSplitAux]
      cases hbf : breakFirst sep s with
      | none => rfl
      | some p =>
        have hlt : p.2.length < s.length := breakFirst_length_lt sep hsep hbf
        show p.1 :: jsSplitAux sep f p.2 = p.1 :: jsSplitAux sep g p.2
        rw [ihf g p.2 (by omega) (by omega)]

lemma jsSplit_of_none {sep s : List Char} (h : breakFirst sep s = none) :
    jsSplit sep s = [s] := by
  rw [jsSplit, jsSplitAux, h]

lemma jsSplit_of_some {sep s a b : List Char} (hsep : sep ≠ [])
    (h : breakFirst sep s = some (a, b)) :
    jsSplit sep s = a :: jsSplit sep b := by
  have hlt : b.length < s.length := breakFirst_length_lt sep hsep h
  rw [jsSplit, jsSplitAux, h]
  show a :: jsSplitAux sep s.length b = a :: jsSplit sep b
  rw [jsSplitAux_fuel sep hsep s.length (b.length + 1) b (by omega) (by omega)]
  rfl

lemma breakFirst_single (c : Char) (s : List Char) :
    breakFirst [c] s =
      if c ∈ s then some (s.takeWhile (· != c), (s.dropWhile (· != c)).tail)
      else none := by
  induction s with
  | nil => simp [breakFirst]
  | cons x xs ih =>
    by_cases hx : c = x
    · subst hx
      simp [breakFirst, List.isPrefixOf]
    · have hbne : (x != c) = true := by
        simp only [bne_iff_ne, ne_eq]
        exact fun h => hx h.symm
      have h1 : ([c].isPrefixOf (x :: xs)) = false := by
        simp only [List.isPrefixOf, Bool.and_eq_false_iff, beq_eq_false_iff_ne,
          ne_eq]
        left
        exact fun h => hx h
      rw [breakFirst, h1]
      simp only [Bool.false_eq_true, if_false, ih]
      by_cases hm : c ∈ xs
      · simp [hm, hx, List.takeWhile_cons, List.dropWhile_cons, hbne]
      · simp [hm, hx]

lemma jsSplit_single_of_mem {c : Char} {s : List Char} (h : c ∈ s) :
    jsSplit [c] s =
      s.takeWhile (· != c) :: jsSplit [c] ((s.dropWhile (· != c)).tail) := by
  apply jsSplit_of_some (by simp)
  rw [breakFirst_single, if_pos h]

lemma jsSplit_single_of_not_mem {c : Char} {s : List Char} (h : c ∉ s) :
    jsSplit [c] s = [s] := by
  apply jsSplit_of_none
  rw [breakFirst_single, if_neg h]

lemma takeWhile_bne_of_not_mem {c : Char} {s : List Char} (h : c ∉ s) :
    s.takeWhile (· != c) = s := by
  rw [List.takeWhile_eq_self_iff]
  intro x hx
  simp only [bne_iff_ne, ne_eq]
  exact fun hxc => h (hxc ▸ hx)

lemma jsSplit_getElem0 (c : Char) (s : List Char) :
    (jsSplit [c] s)[0]? = some (s.takeWhile (· != c)) := by
  by_cases h : c ∈ s
  · rw [jsSplit_single_of_mem h]; simp
  · rw [jsSplit_single_of_not_mem h, takeWhile_bne_of_not_mem h]; simp

lemma jsSplit_getElem1_of_mem {c : Char} {s : List Char} (h : c ∈ s) :
    (jsSplit [c] s)[1]? =
      some (((s.dropWhile (· != c)).tail).takeWhile (· != c)) := by
  rw [jsSplit_single_of_mem h]
  simpa using jsSplit_getElem0 c ((s.dropWhile (· != c)).tail)

lemma jsSplit_getElem1_of_not_mem {c : Char} {s : List Char} (h : c ∉ s) :
    (jsSplit [c] s)[1]? = none := by
  rw [jsSplit_single_of_not_mem h]
  simp

lemma lineKey_eq (ℓ : List Char) :
    lineKey ℓ = jsTrim (ℓ.takeWhile (· != '=')) := by
  by_cases h : '=' ∈ ℓ
  · rw [lineKey, splitLine, jsSplit_single_of_mem h]
    rfl
  · rw [lineKey, splitLine, jsSplit_single_of_not_mem h,
      takeWhile_bne_of_not_mem h]
    rfl

lemma lineValue?_of_mem {ℓ : List Char} (h : '=' ∈ ℓ) :
    lineValue? ℓ =
      some (jsTrim (((ℓ.dropWhile (· != '=')).tail).takeWhile (· != '='))) := by
  rw [lineValue?, splitLine, List.getElem?_map, jsSplit_getElem1_of_mem h]
  rfl

lemma lineValue?_of_not_mem {ℓ : List Char} (h : '=' ∉ ℓ) :
    lineValue? ℓ = none := by
  rw [lineValue?, splitLine, List.getElem?_map, jsSplit_getElem1_of_not_mem h]
  rfl

lemma parse_loaded_data_eq (d : List Char → List Char) (payload : List Char) :
    parse_loaded_data d payload =
      { writes := (applyLines d ((jsSplit crlf payload).filter goodLine)).1
      , settle :=
          if (applyLines d ((jsSplit crlf payload).filter goodLine)).2
          then .pending else .resolved
      , errLogged := (applyLines d ((jsSplit crlf payload).filter goodLine)).2 } :=
  rfl

lemma applyLines_mem (d : List Char → List Char) :
    ∀ (ls : List (List Char)) kv, kv ∈ (applyLines d ls).1 →
      ∃ ℓ, ℓ ∈ ls ∧ lineWrite d ℓ = some kv := by
  intro ls
  induction ls with
  | nil => intro kv h; simp [applyLines] at h
  | cons ℓ rest ih =>
    intro kv h
    cases hw : lineWrite d ℓ with
    | none => simp [applyLines, hw] at h
    | some kv' =>
      simp only [applyLines, hw, List.mem_cons] at h
      rcases h with rfl | h
      · exact ⟨ℓ, by simp, hw⟩
      · obtain ⟨ℓ', h1, h2⟩ := ih kv h
        exact ⟨ℓ', by simp [h1], h2⟩

lemma applyLines_append_throw (d : List Char → List Char)
    (bad : List Char) (post : List (List Char)) :
    ∀ (pre : List (List Char)), (∀ ℓ ∈ pre, (lineWrite d ℓ).isSome) →
      lineWrite d bad = none →
      applyLines d (pre ++ bad :: post) = (pre.filterMap (lineWrite d), true) := by
  intro pre
  induction pre with
  | nil => intro _ hbad; simp [applyLines, hbad]
  | cons ℓ rest ih =>
    intro hpre hbad
    cases hw : lineWrite d ℓ with
    | none =>
      have := hpre ℓ (by simp)
      rw [hw] at this
      simp at this
    | some kv =>
      have hrest := ih (fun ℓ' h' => hpre ℓ' (by simp [h'])) hbad
      simp only [List.cons_append, applyLines, hw, List.append_eq, hrest,
        List.filterMap_cons]

lemma applyLines_throw_decomp (d : List Char → List Char) :
    ∀ (ls : List (List Char)), (applyLines d ls).2 = true →
      ∃ pre bad post, ls = pre ++ bad :: post ∧
        (∀ ℓ ∈ pre, (lineWrite d ℓ).isSome) ∧ lineWrite d bad = none := by
  intro ls
  induction ls with
  | nil => intro h; simp [applyLines] at h
  | cons ℓ rest ih =>
    intro h
    cases hw : lineWrite d ℓ with
    | none => exact ⟨[], ℓ, rest, by simp, by simp, hw⟩
    | some kv =>
      simp only [applyLines, hw] at h
      obtain ⟨pre, bad, post, h1, h2, h3⟩ := ih h
      refine ⟨ℓ :: pre, bad, post, by simp [h1], ?_, h3⟩
      intro ℓ' h'
      rcases List.mem_cons.mp h' with rfl | h'
      · simp [hw]
      · exact h2 ℓ' h'

lemma lineWrite_of_no_eq {ℓ : List Char} (h : '=' ∉ ℓ)
    (d : List Char → List Char) : lineWrite d ℓ = none := by
  rw [lineWrite, lineValue?_of_not_mem h]

lemma lineWrite_isSome_of_eq {ℓ : List Char} (h : '=' ∈ ℓ)
    (d : List Char → List Char) : (lineWrite d ℓ).isSome := by
  rw [lineWrite, lineValue?_of_mem h]
  rfl

/-!
Claim theorems.
-/

/-- C1: `parse_loaded_data` decodes the payload, splits it on CRLF and
discards blank lines and lines beginning with `#`: every
environment-variable assignment it performs originates from a nonempty
CRLF-line not starting with `#`, so blank and comment lines never cause a
write; and on the payload "A=1\r\n#comment\r\n\r\nB=2\r\n" exactly the
entries A = "1" and B = "2" are written, in this order, and nothing
else. -/
theorem parse_skips_blank_and_comment_lines :
    (∀ (d : List Char → List Char) (payload : List Char)
        (kv : List Char × List Char),
        kv ∈ (parse_loaded_data d payload).writes →
        ∃ ℓ, ℓ ∈ jsSplit crlf payload ∧ ℓ.isEmpty = false ∧
          jsStartsWith ['#'] ℓ = false ∧ lineWrite d ℓ = some kv) ∧
    parse_loaded_data noDecrypt ("A=1\r\n#comment\r\n\r\nB=2\r\n").toList =
      { writes := [("A".toList, "1".toList), ("B".toList, "2".toList)]
      , settle := .resolved
      , errLogged := false } := by
  constructor
  · intro d payload kv h
    rw [parse_loaded_data_eq] at h
    obtain ⟨ℓ, h1, h2⟩ := applyLines_mem d _ kv h
    have hg := List.mem_filter.mp h1
    have hgood := hg.2
    simp only [goodLine, Bool.and_eq_true, Bool.not_eq_true'] at hgood
    exact ⟨ℓ, hg.1, hgood.1, hgood.2, h2⟩
  · decide

/-- Witness for C1: the write A = "1" of the scenario payload indeed
originates from the surviving line "A=1". -/
theorem parse_skips_blank_and_comment_lines_witness :
    ("A".toList, "1".toList) ∈
        (parse_loaded_data noDecrypt
          ("A=1\r\n#comment\r\n\r\nB=2\r\n").toList).writes ∧
      ∃ ℓ, ℓ ∈ jsSplit crlf ("A=1\r\n#comment\r\n\r\nB=2\r\n").toList ∧
        ℓ.isEmpty = false ∧ jsStartsWith ['#'] ℓ = false ∧
        lineWrite noDecrypt ℓ = some ("A".toList, "1".toList) :=
  ⟨by decide,
    parse_skips_blank_and_comment_lines.1 noDecrypt _ _ (by decide)⟩

/-- C2 counterexample: on the data line "A=B=C" — no `devEnc:` marker,
right-hand side after the first `=` is "B=C" — the code writes the value
"B", not the whole trimmed right-hand side "B=C": `split("=")` splits at
every `=` and the destructuring keeps only the segment between the first
and second `=`. -/
theorem split_drops_after_second_eq_cex :
    (parse_loaded_data noDecrypt ("A=B=C").toList).writes
        = [("A".toList, "B".toList)] ∧
      "B".toList ≠ "B=C".toList := by decide

/-- C2 (amended): a data line is split at every `=`.  For every line
containing an `=`, the key written is the text before the first `=`
trimmed, and the raw value is the text strictly between the first and
second `=` (to the end of the line when there is no second `=`) trimmed —
so the environment value equals the entire trimmed right-hand side
exactly when the right-hand side contains no further `=`; any text from a
second `=` on is dropped. -/
theorem line_split_first_two_segments
    (d : List Char → List Char) (ℓ : List Char) (h : '=' ∈ ℓ) :
    lineWrite d ℓ =
      some
        (jsTrim (ℓ.takeWhile (· != '=')),
          if jsStartsWith devEncMarker
              (jsTrim (((ℓ.dropWhile (· != '=')).tail).takeWhile (· != '=')))
          then d (jsTrim (((ℓ.dropWhile (· != '=')).tail).takeWhile (· != '=')))
          else jsTrim (((ℓ.dropWhile (· != '=')).tail).takeWhile (· != '='))) ∧
    ('=' ∉ (ℓ.dropWhile (· != '=')).tail →
      jsTrim (((ℓ.dropWhile (· != '=')).tail).takeWhile (· != '='))
        = jsTrim ((ℓ.dropWhile (· != '=')).tail)) := by
  constructor
  · rw [lineWrite, lineValue?_of_mem h, lineKey_eq]
  · intro h2
    rw [takeWhile_bne_of_not_mem h2]

/-- Witness for C2 (amended) on the line "K = V=W": the key is "K", the
raw value is "V" (the text between the first and second `=`, trimmed). -/
theorem line_split_first_two_segments_witness :
    '=' ∈ ("K = V=W").toList ∧
    (lineWrite noDecrypt ("K = V=W").toList =
      some
        (jsTrim (("K = V=W").toList.takeWhile (· != '=')),
          if jsStartsWith devEncMarker
              (jsTrim (((("K = V=W").toList.dropWhile (· != '=')).tail).takeWhile
                (· != '=')))
          then noDecrypt
            (jsTrim (((("K = V=W").toList.dropWhile (· != '=')).tail).takeWhile
              (· != '=')))
          else jsTrim (((("K = V=W").toList.dropWhile (· != '=')).tail).takeWhile
            (· != '='))) ∧
    ('=' ∉ (("K = V=W").toList.dropWhile (· != '=')).tail →
      jsTrim (((("K = V=W").toList.dropWhile (· != '=')).tail).takeWhile
          (· != '='))
        = jsTrim ((("K = V=W").toList.dropWhile (· != '=')).tail))) :=
  ⟨by decide, line_split_first_two_segments noDecrypt _ (by decide)⟩

/-- C10: a surviving (nonempty, non-comment) line with no `=` makes the
`forEach` throw — the destructured value is undefined when `startsWith`
is called on it: the environment assignments are exactly those of the
surviving lines before that line (neither it nor any later line writes),
that line itself produces no assignment, the error is only logged, and
the promise returned by `parse_loaded_data` never settles: it is
pending, neither resolved nor rejected. -/
theorem parse_line_without_eq_throws
    (d : List Char → List Char) (payload : List Char)
    (pre : List (List Char)) (bad : List Char) (post : List (List Char))
    (hsplit : (jsSplit crlf payload).filter goodLine = pre ++ bad :: post)
    (hbad : '=' ∉ bad)
    (hpre : ∀ ℓ ∈ pre, '=' ∈ ℓ) :
    (parse_loaded_data d payload).writes = pre.filterMap (lineWrite d) ∧
    lineWrite d bad = none ∧
    (parse_loaded_data d payload).errLogged = true ∧
    (parse_loaded_data d payload).settle = .pending ∧
    (parse_loaded_data d payload).settle ≠ .resolved ∧
    (parse_loaded_data d payload).settle ≠ .rejected := by
  have hbadw : lineWrite d bad = none := lineWrite_of_no_eq hbad d
  have happ :
      applyLines d ((jsSplit crlf payload).filter goodLine)
        = (pre.filterMap (lineWrite d), true) := by
    rw [hsplit]
    exact applyLines_append_throw d bad post pre
      (fun ℓ h => lineWrite_isSome_of_eq (hpre ℓ h) d) hbadw
  rw [parse_loaded_data_eq, happ]
  exact ⟨rfl, hbadw, rfl, rfl, by simp, by simp⟩

/-- Witness for C10 on the payload "A=1\r\nOOPS\r\nB=2": the line "OOPS"
has no `=`; only A = "1" is written, the error is logged and the promise
stays pending. -/
theorem parse_line_without_eq_throws_witness :
    ((jsSplit crlf ("A=1\r\nOOPS\r\nB=2").toList).filter goodLine
        = ["A=1".toList] ++ "OOPS".toList :: ["B=2".toList]) ∧
    '=' ∉ "OOPS".toList ∧
    (∀ ℓ ∈ ["A=1".toList], '=' ∈ ℓ) ∧
    ((parse_loaded_data noDecrypt ("A=1\r\nOOPS\r\nB=2").toList).writes
        = (["A=1".toList]).filterMap (lineWrite noDecrypt) ∧
      lineWrite noDecrypt ("OOPS").toList = none ∧
      (parse_loaded_data noDecrypt ("A=1\r\nOOPS\r\nB=2").toList).errLogged
        = true ∧
      (parse_loaded_data noDecrypt ("A=1\r\nOOPS\r\nB=2").toList).settle
        = .pending ∧
      (parse_loaded_data noDecrypt ("A=1\r\nOOPS\r\nB=2").toList).settle
        ≠ .resolved ∧
      (parse_loaded_data noDecrypt ("A=1\r\nOOPS\r\nB=2").toList).settle
        ≠ .rejected) :=
  ⟨by decide, by decide, by decide,
    parse_line_without_eq_throws noDecrypt ("A=1\r\nOOPS\r\nB=2").toList
      ["A=1".toList] ("OOPS".toList) ["B=2".toList] (by decide) (by decide)
      (by decide)⟩

/-- C5 counterexample: on the payload "X" the parse step throws and logs,
but the promise returned by `parse_loaded_data` does not resolve — it
stays pending — refuting "the promise returned by parse_loaded_data
resolves". -/
theorem parse_exception_promise_not_resolved_cex :
    (parse_loaded_data noDecrypt ("X").toList).errLogged = true ∧
    (parse_loaded_data noDecrypt ("X").toList).settle ≠ .resolved := by
  decide

/-- C5 (amended): whenever processing throws inside `parse_loaded_data`,
the exception is logged, no further lines of the payload are applied (the
writes are exactly those of the surviving lines preceding the throwing
one), and the exception is not propagated (the promise never rejects) —
but the promise does not resolve: it remains pending. -/
theorem parse_exception_logged_pending
    (d : List Char → List Char) (payload : List Char)
    (hthrow :
      (applyLines d ((jsSplit crlf payload).filter goodLine)).2 = true) :
    (parse_loaded_data d payload).errLogged = true ∧
    (parse_loaded_data d payload).settle = .pending ∧
    (parse_loaded_data d payload).settle ≠ .rejected ∧
    (parse_loaded_data d payload).settle ≠ .resolved ∧
    ∃ pre bad post,
      (jsSplit crlf payload).filter goodLine = pre ++ bad :: post ∧
      lineWrite d bad = none ∧
      (parse_loaded_data d payload).writes = pre.filterMap (lineWrite d) := by
  obtain ⟨pre, bad, post, h1, h2, h3⟩ :=
    applyLines_throw_decomp d _ hthrow
  have happ :
      applyLines d ((jsSplit crlf payload).filter goodLine)
        = (pre.filterMap (lineWrite d), true) := by
    rw [h1]
    exact applyLines_append_throw d bad post pre h2 h3
  rw [parse_loaded_data_eq, happ]
  exact ⟨rfl, rfl, by simp, by simp, pre, bad, post, h1, h3, rfl⟩

/-- Witness for C5 (amended) on the payload "Y": the parse throws, logs,
and the promise is pending. -/
theorem parse_exception_logged_pending_witness :
    (applyLines noDecrypt
        ((jsSplit crlf ("Y").toList).filter goodLine)).2 = true ∧
    ((parse_loaded_data noDecrypt ("Y").toList).errLogged = true ∧
      (parse_loaded_data noDecrypt ("Y").toList).settle = .pending ∧
      (parse_loaded_data noDecrypt ("Y").toList).settle ≠ .rejected ∧
      (parse_loaded_data noDecrypt ("Y").toList).settle ≠ .resolved ∧
      ∃ pre bad post,
        (jsSplit crlf ("Y").toList).filter goodLine = pre ++ bad :: post ∧
        lineWrite noDecrypt bad = none ∧
        (parse_loaded_data noDecrypt ("Y").toList).writes
          = pre.filterMap (lineWrite noDecrypt)) :=
  ⟨by decide, parse_exception_logged_pending noDecrypt _ (by decide)⟩

lemma removeFirst_append (p r : List Char) : removeFirst p (p ++ r) = r := by
  rcases hq : p ++ r with _ | ⟨c, cs⟩
  · obtain ⟨hp, hr⟩ := List.append_eq_nil.mp hq
    subst hp hr
    rfl
  · have hpre : p.isPrefixOf (c :: cs) = true := by
      rw [← hq]
      exact List.isPrefixOf_iff_prefix.mpr ⟨r, rfl⟩
    rw [removeFirst, if_pos hpre, ← hq, List.drop_left]

lemma length_hexEncode (bs : List Nat) :
    (hexEncode bs).length = 2 * bs.length := by
  induction bs with
  | nil => rfl
  | cons b bs ih =>
    simp only [hexEncode, List.map_cons, List.flatten_cons, byteToHex,
      List.length_append, List.length_cons, List.length_nil] at *
    omega

lemma hexVal?_hexDigitChar : ∀ n < 16, hexVal? (hexDigitChar n) = some n := by
  decide

lemma hexDecode_hexEncode :
    ∀ (bs : List Nat), (∀ b ∈ bs, b < 256) → hexDecode (hexEncode bs) = bs := by
  intro bs
  induction bs with
  | nil => intro _; rfl
  | cons b bs ih =>
    intro h
    have hb : b < 256 := h b (by simp)
    have he : hexEncode (b :: bs)
        = hexDigitChar (b / 16 % 16) :: hexDigitChar (b % 16) :: hexEncode bs := by
      simp [hexEncode, byteToHex]
    rw [he, hexDecode, hexVal?_hexDigitChar (b / 16 % 16) (by omega),
      hexVal?_hexDigitChar (b % 16) (by omega),
      ih (fun x hx => h x (by simp [hx]))]
    have hbv : 16 * (b / 16 % 16) + b % 16 = b := by omega
    show (16 * (b / 16 % 16) + b % 16) :: bs = b :: bs
    rw [hbv]

lemma hexEncode_append_take (iv ct : List Nat) (h : iv.length = 16) :
    (hexEncode iv ++ hexEncode ct).take 32 = hexEncode iv := by
  have h32 : (hexEncode iv).length = 32 := by rw [length_hexEncode, h]
  rw [← h32, List.take_left]

lemma hexEncode_append_drop (iv ct : List Nat) (h : iv.length = 16) :
    (hexEncode iv ++ hexEncode ct).drop 32 = hexEncode ct := by
  have h32 : (hexEncode iv).length = 32 := by rw [length_hexEncode, h]
  rw [← h32, List.drop_left]

/-- C3: encrypt-then-decrypt round-trip of `decrypt_value`.  `decipher`
stands for the external AES-256-CBC decipher under the configured key
(the hex-decoded `encryption_secret_key`, source line 271): whenever the
ciphertext bytes `ct` decipher to the plaintext `pt` under that key and
the 16-byte IV `iv` — which is what holds when `ct` was produced by
encrypting `pt` under that key and IV — `decrypt_value` applied to the
value formed as `devEnc:` followed by the 32 hex characters of `iv` and
the hex encoding of `ct` returns exactly `pt`: the marker is stripped,
the first 32 hex characters after it are taken as the IV and the
remainder as the ciphertext. -/
theorem decrypt_value_roundtrip
    (decipher : List Nat → List Nat → List Nat → List Char)
    (secret : List Char) (iv ct : List Nat) (pt : List Char)
    (hiv : iv.length = 16)
    (hivb : ∀ b ∈ iv, b < 256) (hctb : ∀ b ∈ ct, b < 256)
    (hround : decipher (hexDecode secret) iv ct = pt) :
    decrypt_value decipher secret
        (devEncMarker ++ hexEncode iv ++ hexEncode ct) = pt := by
  simp only [decrypt_value, List.append_assoc, removeFirst_append,
    hexEncode_append_take iv ct hiv, hexEncode_append_drop iv ct hiv,
    hexDecode_hexEncode iv hivb, hexDecode_hexEncode ct hctb]
  exact hround

/-- Witness for C3 with a concrete decipher fixture (byte-to-character
map), zero IV and the ciphertext bytes of "hi". -/
theorem decrypt_value_roundtrip_witness :
    (List.replicate 16 (0 : Nat)).length = 16 ∧
    (∀ b ∈ List.replicate 16 (0 : Nat), b < 256) ∧
    (∀ b ∈ [104, 105], b < 256) ∧
    (fun (_ : List Nat) (_ : List Nat) (bs : List Nat) => bs.map Char.ofNat)
        (hexDecode "ab".toList) (List.replicate 16 (0 : Nat)) [104, 105]
      = "hi".toList ∧
    decrypt_value
        (fun (_ : List Nat) (_ : List Nat) (bs : List Nat) => bs.map Char.ofNat)
        "ab".toList
        (devEncMarker ++ hexEncode (List.replicate 16 (0 : Nat))
          ++ hexEncode [104, 105])
      = "hi".toList :=
  ⟨by decide, by decide, by decide, by decide,
    decrypt_value_roundtrip _ _ _ _ _ (by decide) (by decide) (by decide)
      (by decide)⟩

lemma constructAll_some (i : ZookeeperClient) :
    ∀ (cs : List ZClientConfig) (sid : Nat),
      constructAll (some i) sid cs = List.replicate cs.length i := by
  intro cs
  induction cs with
  | nil => intro sid; rfl
  | cons c cs ih =>
    intro sid
    simp [constructAll, construct, ih, List.replicate_succ]

/-- C4: the constructor is a process-wide singleton.  Starting from no
instance, a sequence of constructor calls returns the instance built from
the first call's config for every call — the first creates and stores it,
every later call hands back that same instance with all configuration
fields unchanged, ignoring its own arguments — and the fields of that one
instance are exactly those of the first config. -/
theorem singleton_constructor_returns_first_instance
    (c0 : ZClientConfig) (cs : List ZClientConfig) (sid0 : Nat) :
    constructAll none sid0 (c0 :: cs)
        = List.replicate (cs.length + 1) (mkInstance c0 sid0) ∧
    (mkInstance c0 sid0).connection_string = c0.connectionString ∧
    (mkInstance c0 sid0).username = c0.username ∧
    (mkInstance c0 sid0).password = c0.password ∧
    (mkInstance c0 sid0).path = c0.path ∧
    (mkInstance c0 sid0).encryption_secret_key = c0.encryptionSecretKey ∧
    (mkInstance c0 sid0).logger = c0.logger ∧
    (mkInstance c0 sid0).on_update_configurations = c0.onUpdateConfigurations := by
  refine ⟨?_, rfl, rfl, rfl, rfl, rfl, rfl, rfl⟩
  simp [constructAll, construct, constructAll_some, List.replicate_succ]

/-- C6 counterexample: first chain throws, the retried chain succeeds.
The error is logged, `retry()` runs (one close) and completes — its inner
run resolves — yet the promise returned by the original `run()` is not
resolved: the catch never calls `resolve`, so the promise stays pending
(it does not reject either), refuting "run() still resolves successfully
after retry completes". -/
theorem run_failure_not_resolved_after_retry_cex :
    (run_model [false, true]).unhandledLogs = 1 ∧
    (run_model [false, true]).closes = 1 ∧
    (retry_model [true]).state = .resolved ∧
    (run_model [false, true]).state ≠ .resolved ∧
    (run_model [false, true]).state ≠ .rejected := by decide

/-- C6 (amended): every failure inside the `run()` chain is logged and
invokes `retry()`, and no failure ever propagates as a rejection — the
promise `run()` returns never rejects; but after a failure that promise
never resolves either, even after the retry completes: it stays pending.
`run()` resolves exactly when its own first chain succeeds. -/
theorem run_failure_absorbed_pending (attempts : List Bool) :
    (run_model attempts).state ≠ .rejected ∧
    ((run_model attempts).state = .resolved ↔ attempts.head? = some true) ∧
    (attempts.head? = some false →
      (run_model attempts).state = .pending ∧
      1 ≤ (run_model attempts).unhandledLogs ∧
      1 ≤ (run_model attempts).closes) := by
  cases attempts with
  | nil => simp [run_model]
  | cons b rest => cases b <;> simp [run_model]

/-- Witness for C6 (amended) at the single failing chain `[false]`. -/
theorem run_failure_absorbed_pending_witness :
    [false].head? = some false ∧
    ((run_model [false]).state = .pending ∧
      1 ≤ (run_model [false]).unhandledLogs ∧
      1 ≤ (run_model [false]).closes) :=
  ⟨rfl, (run_failure_absorbed_pending [false]).2.2 rfl⟩

lemma run_trace_all (sid : Nat) :
    ∀ attempts, (run_trace sid attempts).all
      (fun a => !a.isCreate && (a.sid == sid)) = true := by
  intro attempts
  induction attempts with
  | nil => simp [run_trace, ZAction.isCreate, ZAction.sid]
  | cons b rest ih =>
    cases b <;> simp_all [run_trace, ZAction.isCreate, ZAction.sid]

lemma run_trace_head (sid : Nat) :
    ∀ attempts, ∃ t, run_trace sid attempts = ZAction.connectSession sid :: t := by
  intro attempts
  cases attempts with
  | nil => exact ⟨[], rfl⟩
  | cons b rest => cases b <;> exact ⟨_, rfl⟩

/-- C7 counterexample: a retry whose follow-up chain succeeds closes
session handle 0 and then connects and reads on the very same handle 0;
its trace contains no session-creation action at all.  The closed session
handle is reused, not destroyed and replaced by a newly created one. -/
theorem retry_reuses_session_cex :
    retry_trace 0 [true]
        = [ZAction.closeSession 0, ZAction.connectSession 0,
            ZAction.getData 0] ∧
    (retry_trace 0 [true]).all (fun a => !a.isCreate) = true := by decide

/-- C7 (amended): on every retry the current session handle is closed
first, and then the very same handle — created once at construction,
`this.client` being `readonly` and never reassigned — is reconnected and
used for the new connect/watch/fetch cycle: every action of the retry
trace targets that handle and none creates a new session, with the close
preceding the reconnect. -/
theorem retry_closes_then_reuses_same_session (sid : Nat)
    (attempts : List Bool) :
    (retry_trace sid attempts).all
        (fun a => !a.isCreate && (a.sid == sid)) = true ∧
    ∃ rest, retry_trace sid attempts
        = ZAction.closeSession sid :: ZAction.connectSession sid :: rest := by
  constructor
  · rw [retry_trace, List.all_cons, run_trace_all sid attempts]
    simp [ZAction.isCreate, ZAction.sid]
  · obtain ⟨t, ht⟩ := run_trace_head sid attempts
    exact ⟨t, by rw [retry_trace, ht]⟩

/-- C8: the watch callback registered by `fetch_config` refetches exactly
on "node data changed": for every watcher event it makes one new
`fetch_config()` call iff the event is the NODE_DATA_CHANGED event
(type 3, name "NODE_DATA_CHANGED") and zero otherwise; over the
library's watcher event kinds, only `nodeDataChanged` triggers the
refetch; and every `fetch_config` call issues exactly one read, which
registers one fresh watch in the same call. -/
theorem watch_refetch_iff_node_data_changed :
    (∀ e : ZkEvent, watch_refetch_count e
        = if e = eventOf .nodeDataChanged then 1 else 0) ∧
    (∀ k : WatchKind,
      (watch_refetch_count (eventOf k) = 1 ↔ k = .nodeDataChanged) ∧
      (k ≠ .nodeDataChanged → watch_refetch_count (eventOf k) = 0)) ∧
    (∀ sid : Nat,
      (fetch_config_trace sid).count (ZAction.getData sid) = 1) := by
  refine ⟨?_, ?_, fun sid => by simp [fetch_config_trace]⟩
  · intro e
    rcases e with ⟨t, n⟩
    by_cases ht : t = 3 <;> by_cases hn : n = "NODE_DATA_CHANGED" <;>
      simp [watch_refetch_count, eventOf, ZkEvent.mk.injEq, ht, hn]
  · intro k
    cases k <;> simp [watch_refetch_count, eventOf]

/-- C9 (evaluation of the code at the failing input): the module flag
`is_running_zookeeper` is never assigned anywhere in the source, so both
branches of `run_zookeeper` leave it at its value; starting from the
initial state, a second invocation while the first cycle is in flight
still sees the flag unset, passes the guard and enters the
construct-and-run branch — starting a second run cycle — instead of
resolving as a no-op as the claim states. -/
theorem run_zookeeper_guard_never_blocks :
    (∀ (cfg : ZClientConfig) (sid : Nat) (st : ModuleState),
      ((run_zookeeper cfg sid st).2).is_running_zookeeper
        = st.is_running_zookeeper) ∧
    (∀ cfg cfg2 : ZClientConfig,
      ((run_zookeeper cfg 0 initialModuleState).2).is_running_zookeeper
          = false ∧
      (run_zookeeper cfg2 1 ((run_zookeeper cfg 0 initialModuleState).2)).1
          = .constructedAndRan ∧
      (run_zookeeper cfg2 1 ((run_zookeeper cfg 0 initialModuleState).2)).1
          ≠ .noop) := by
  constructor
  · intro cfg sid st
    by_cases h : st.is_running_zookeeper <;> simp [run_zookeeper, h]
  · intro cfg cfg2
    refine ⟨rfl, rfl, by simp [run_zookeeper, initialModuleState]⟩
